import Mathlib

/-!
# Karpas falling-block game: shallow embedding

A shallow embedding of the falling-piece simulation of `src/main.rs`
(the `stag::game` module of the karpas Bevy application), written to
check the natural-language specification against the code.

Modelling notes, each traceable to the source:

* The source stores positions as `f32` pixel translations produced by
  `transform_as_in_area(x, y) = (48*x - 240, 48*y - 384)` and recovers
  grid indices with `untransform_as_in_area` followed by `round()`.
  Every translation the game creates lies exactly on this grid (spawn
  positions, moves by whole `BLOCK_SIZE` steps), and the small integers
  involved are exact in `f32`, so the embedding works directly with
  integer grid coordinates `(col, row) : ℤ × ℤ`.
* The source rotates the falling parent entity by `f32` quaternions
  (`Quat::from_rotation_z(±π/2)`), and the children's global transforms
  are rounded back to grid cells when they are landed.  On the
  90-degree-aligned offsets of the seven tetrominoes the induced map on
  grid cells is the exact integer quarter-turn `(x, y) ↦ (-y, x)`, which
  is what the embedding uses, with the accumulated quarter-turn count
  kept as an integer (`p90_spin` adds one, `n90_spin` subtracts one).
* `is_movable` in the source receives a single target `Transform` (the
  falling entity's origin) and scans every non-falling `MinoEntity`
  transform: it returns `false` exactly when some mino occupies the
  target's grid cell.  Only that one cell is ever tested.
* Bounds are not tested arithmetically: `spawn_area` spawns invisible
  dummy minos at columns -1 and 11 for rows 0..=16 and at row -1 for
  columns -1..=10, and collision with those is the only wall/floor
  rejection.
* The `HardDrop` arm's `loop` has no bound in the source; the embedding
  mirrors it with explicit fuel (`hardDropLoop`), which computes the
  loop's result whenever the fuel exceeds the descent distance to the
  first blocked row.
-/

namespace Karpas

/-- A grid coordinate `(col, row)`, as recovered by
`untransform_as_in_area` + `round` from a transform's translation. -/
abbrev Cell := ℤ × ℤ

/-- The sprite colors the game uses (`Color::AQUAMARINE` … in the source);
`white` is the default `Sprite` color carried by the dummy wall/floor
minos, `olive` the falling parent's marker sprite, `black` the board
field sprite. -/
inductive Color where
  | aquamarine | blue | orange | yellow | green | pink | red | white | olive | black
  deriving DecidableEq, Repr

/-- A non-falling `MinoEntity`: its grid position and sprite color. -/
structure Mino where
  pos : Cell
  color : Color
  deriving DecidableEq, Repr

/-- A tetromino shape: the four child offsets, in grid units.  In the
source each shape is a `[Transform; 4]` with translations that are the
offsets scaled by `BLOCK_SIZE`. -/
structure Shape where
  offsets : List Cell
  deriving DecidableEq, Repr

/-- The `I` shape (`const I` in the source, offsets divided by 48). -/
def I : Shape := ⟨[(-1, 1), (0, 1), (1, 1), (2, 1)]⟩

/-- The `J` shape. -/
def J : Shape := ⟨[(-1, 1), (-1, 0), (0, 0), (1, 0)]⟩

/-- The `L` shape. -/
def L : Shape := ⟨[(1, 1), (-1, 0), (0, 0), (1, 0)]⟩

/-- The `O` shape. -/
def O : Shape := ⟨[(0, 1), (1, 1), (0, 0), (1, 0)]⟩

/-- The `S` shape. -/
def S : Shape := ⟨[(0, 1), (1, 1), (-1, 0), (0, 0)]⟩

/-- The `T` shape. -/
def T : Shape := ⟨[(0, 1), (-1, 0), (0, 0), (1, 0)]⟩

/-- The `Z` shape. -/
def Z : Shape := ⟨[(-1, 1), (0, 1), (0, 0), (1, 0)]⟩

/-- The catalog of the seven shapes with their colors, in the order of
the `match` in `spawn_falling`. -/
def shapeCatalog : List (Shape × Color) :=
  [(I, .aquamarine), (J, .blue), (L, .orange), (O, .yellow),
   (S, .green), (T, .pink), (Z, .red)]

/-- The `match rand::random::<u8>() % 7` of `spawn_falling`: arms `0`
through `6` pick a shape/color, the remaining arm is `_ => panic!()`,
embedded as `none`. -/
def chooseShape : ℕ → Option (Shape × Color)
  | 0 => some (I, .aquamarine)
  | 1 => some (J, .blue)
  | 2 => some (L, .orange)
  | 3 => some (O, .yellow)
  | 4 => some (S, .green)
  | 5 => some (T, .pink)
  | 6 => some (Z, .red)
  | _ + 7 => none

/-- The falling piece: origin (the parent entity's translation, in grid
units), the accumulated signed quarter-turn count (the parent's rotation
is `Quat::from_rotation_z(rot * π/2)`), its shape and sprite color. -/
structure Piece where
  origin : Cell
  rot : ℤ
  shape : Shape
  color : Color
  deriving DecidableEq, Repr

/-- One exact counterclockwise quarter turn of a grid offset: the map
induced on grid cells by `Quat::from_rotation_z(π/2)` (after the
source's round-to-grid step). -/
def rotCell (c : Cell) : Cell := (-c.2, c.1)

/-- Rotation of an offset by a signed number of quarter turns. -/
def zrot (k : ℤ) (c : Cell) : Cell := rotCell^[(k % 4).toNat] c

/-- Componentwise addition of grid coordinates. -/
def addCell (a b : Cell) : Cell := (a.1 + b.1, a.2 + b.2)

/-- The four absolute cells of the falling piece: each child's global
transform (parent translation plus rotated child offset), in grid
units. -/
def occupiedCells (p : Piece) : List Cell :=
  p.shape.offsets.map (fun o => addCell p.origin (zrot p.rot o))

/-- `p90_spin`: rotate the parent by `+π/2`; one more quarter turn. -/
def p90Spin (p : Piece) : Piece := { p with rot := p.rot + 1 }

/-- `n90_spin`: rotate the parent by `-π/2`; one quarter turn fewer. -/
def n90Spin (p : Piece) : Piece := { p with rot := p.rot - 1 }

/-- `is_movable`: true iff no non-falling mino occupies the target grid
cell.  The source rounds both the target's and each mino's translation
back to grid indices and compares; on the exact grid this is equality of
cells. -/
def isMovable (minos : List Mino) (target : Cell) : Bool :=
  minos.all (fun m => m.pos ≠ target)

/-- The dummy minos `spawn_area` creates: invisible walls at columns
`-1` and `11` for `y in 0..=16`, and an invisible floor at row `-1` for
`x in -1..11`. -/
def dummyMinos : List Mino :=
  ((List.range 17).flatMap
      (fun y => [⟨(-1, (y : ℤ)), .white⟩, ⟨(11, (y : ℤ)), .white⟩]))
    ++ (List.range 12).map (fun i => ⟨((i : ℤ) - 1, -1), .white⟩)

/-- The game state the claims are about: the non-falling minos (dummy
walls/floor plus landed cells) and the single falling piece. -/
structure GameState where
  minos : List Mino
  falling : Piece
  deriving DecidableEq, Repr

/-- The decoded player commands (`enum FallingInput`). -/
inductive FallingInput where
  | left | right | hardDrop | p90Spin | n90Spin
  deriving DecidableEq, Repr

/-- The `loop` of the `HardDrop` arm: starting from the current row
`uy`, while the cell `(ux, uy)` is movable decrement `uy`; the committed
row is the first `uy` at which `is_movable` fails (the loop breaks with
`new_transform` already holding that failing candidate).  `fuel` bounds
the recursion; with fuel exceeding the distance to the first blocked row
it returns exactly the source loop's result. -/
def hardDropLoop (minos : List Mino) (ux : ℤ) : ℕ → ℤ → ℤ
  | 0, uy => uy
  | fuel + 1, uy =>
    if isMovable minos (ux, uy) then hardDropLoop minos ux fuel (uy - 1) else uy

/-- `falling_handle`, one input event: returns the updated state and
whether a `Landing` event was sent.  `fuel` is used only by the
`HardDrop` arm's loop. -/
def fallingHandle (fuel : ℕ) (s : GameState) : FallingInput → GameState × Bool
  | .left =>
    let cand := addCell s.falling.origin (-1, 0)
    if isMovable s.minos cand then
      ({ s with falling := { s.falling with origin := cand } }, false)
    else (s, false)
  | .right =>
    let cand := addCell s.falling.origin (1, 0)
    if isMovable s.minos cand then
      ({ s with falling := { s.falling with origin := cand } }, false)
    else (s, false)
  | .hardDrop =>
    let uy := hardDropLoop s.minos s.falling.origin.1 fuel s.falling.origin.2
    ({ s with falling := { s.falling with origin := (s.falling.origin.1, uy) } },
     true)
  | .p90Spin => ({ s with falling := p90Spin s.falling }, false)
  | .n90Spin => ({ s with falling := n90Spin s.falling }, false)

/-- The gravity threshold: `const THRESHOLD: f32 = 1.5` seconds. -/
def gravityThreshold : ℚ := 3 / 2

/-- `tick_falling`: advance the stopwatch by the frame delta; below the
threshold do nothing, otherwise reset the stopwatch to zero and attempt
a single one-cell descent, sending `Landing` (and not moving) when the
cell below the origin is blocked.  Returns (new accumulator, new state,
`Landing` sent?). -/
def tickFalling (acc delta : ℚ) (s : GameState) : ℚ × GameState × Bool :=
  let acc' := acc + delta
  if acc' < gravityThreshold then (acc', s, false)
  else
    let below := addCell s.falling.origin (0, -1)
    if isMovable s.minos below then
      (0, { s with falling := { s.falling with origin := below } }, false)
    else (0, s, true)

/-- The fixed spawn translation `transform_as_in_area(5.0, 16.0)`, in
grid units. -/
def spawnCoord : Cell := (5, 16)

/-- `spawn_falling` for a given random byte `b`: the shape is chosen by
`b % 7`; the parent is spawned at `(5, 16)` with the identity rotation
(zero quarter turns).  `none` is the unreachable `panic!()` arm. -/
def spawnFalling (b : ℕ) : Option Piece :=
  (chooseShape (b % 7)).map (fun sc => ⟨spawnCoord, 0, sc.1, sc.2⟩)

/-- `handle_landing` (with a `Landing` event pending) followed by its
call to `spawn_falling` drawing random byte `b`: despawn the falling
parent and its children, respawn each child's global-transform cell as a
plain `MinoEntity` with the child sprite's color, and spawn the next
falling piece.  `none` only in the unreachable `panic!()` case. -/
def handleLanding (s : GameState) (b : ℕ) : Option GameState :=
  (spawnFalling b).map
    (fun p =>
      { minos := s.minos ++ (occupiedCells s.falling).map (fun c => ⟨c, s.falling.color⟩),
        falling := p })

/-- The marker components the game attaches to spawned entities
(`AreaEntity`, `AreaFieldEntity`, `MinoEntity`, `DummyMinoEntity`,
`FallingEntity`, `UiEntity`, `ScoreEntity`). -/
inductive Tag where
  | area | areaField | mino | dummyMino | falling | ui | score
  deriving DecidableEq, Repr

/-- A spawned scene entity, reduced to the data the claims need: its
marker components, its grid cell (for mino-like sprites), and its sprite
color. -/
structure SceneEntity where
  tags : List Tag
  pos : Option Cell
  color : Color
  deriving DecidableEq, Repr

/-- The 2D camera `spawn_area` spawns: tagged `AreaEntity` only. -/
def cameraEntity : SceneEntity := ⟨[.area], none, .white⟩

/-- The black board-field sprite `spawn_area` spawns: tagged
`AreaEntity` and `AreaFieldEntity`. -/
def fieldEntity : SceneEntity := ⟨[.area, .areaField], none, .black⟩

/-- A dummy wall/floor mino from `spawn_area`: tagged `MinoEntity` and
`DummyMinoEntity` — and *not* `AreaEntity`. -/
def dummyEntity (c : Cell) : SceneEntity := ⟨[.mino, .dummyMino], some c, .white⟩

/-- A cell landed by `handle_landing`: the spawned entity carries the
`MinoEntity` component only — in particular no `AreaEntity`. -/
def landedEntity (m : Mino) : SceneEntity := ⟨[.mino], some m.pos, m.color⟩

/-- `despawn_area`, run on game-stage exit: it queries
`(Entity, &AreaEntity)` and despawns each result, so exactly the
entities carrying the `AreaEntity` component are removed. -/
def despawnArea (entities : List SceneEntity) : List SceneEntity :=
  entities.filter (fun e => Tag.area ∉ e.tags)

/-- A convenient concrete state: no minos at all, an `O` piece at the
grid origin. -/
def emptyState : GameState := ⟨[], ⟨(0, 0), 0, O, .yellow⟩⟩

/-! ## General lemmas about the embedding -/

theorem isMovable_iff (minos : List Mino) (c : Cell) :
    isMovable minos c = true ↔ ∀ m ∈ minos, m.pos ≠ c := by
  simp [isMovable]

theorem isMovable_false_iff (minos : List Mino) (c : Cell) :
    isMovable minos c = false ↔ ∃ m ∈ minos, m.pos = c := by
  simp [isMovable, List.all_eq_false]

theorem addCell_ne_self (a d : Cell) (hd : d ≠ (0, 0)) : addCell a d ≠ a := by
  obtain ⟨ax, ay⟩ := a
  obtain ⟨dx, dy⟩ := d
  simp only [addCell, ne_eq, Prod.mk.injEq, not_and] at *
  intro h1 h2
  exact hd (by omega) (by omega)

theorem zrot_add_four (k : ℤ) (c : Cell) : zrot (k + 4) c = zrot k c := by
  have h : (k + 4) % 4 = k % 4 := by omega
  simp only [zrot, h]

theorem zrot_sub_four (k : ℤ) (c : Cell) : zrot (k - 4) c = zrot k c := by
  have h : (k - 4) % 4 = k % 4 := by omega
  simp only [zrot, h]

theorem chooseShape_lt_seven (n : ℕ) (hn : n < 7) :
    ∃ sc ∈ shapeCatalog, chooseShape n = some sc := by
  interval_cases n <;> exact ⟨_, by decide, rfl⟩

theorem dummy_blocked_iff (c : Cell) :
    (∃ m ∈ dummyMinos, m.pos = c) ↔
      ((c.1 = -1 ∨ c.1 = 11) ∧ 0 ≤ c.2 ∧ c.2 ≤ 16) ∨
        (c.2 = -1 ∧ -1 ≤ c.1 ∧ c.1 ≤ 10) := by
  obtain ⟨cx, cy⟩ := c
  simp only [dummyMinos, List.mem_append, List.mem_flatMap, List.mem_range, List.mem_map,
    List.mem_cons, List.not_mem_nil, or_false]
  constructor
  · rintro ⟨m, hmem | hmem, hpos⟩
    · obtain ⟨y, hy, hm | hm⟩ := hmem <;> subst hm <;>
        simp only [Prod.mk.injEq] at hpos <;>
        exact Or.inl ⟨by omega, by omega, by omega⟩
    · obtain ⟨i, hi, hm⟩ := hmem
      subst hm
      simp only [Prod.mk.injEq] at hpos
      exact Or.inr ⟨by omega, by omega, by omega⟩
  · rintro (⟨hx, h0, h16⟩ | ⟨hy, hlo, hhi⟩)
    · rcases hx with hx | hx
      · refine ⟨⟨(-1, cy), .white⟩, Or.inl ⟨cy.toNat, by omega, Or.inl ?_⟩, by simp [hx]⟩
        simp only [Mino.mk.injEq, Prod.mk.injEq, and_true, true_and]
        omega
      · refine ⟨⟨(11, cy), .white⟩, Or.inl ⟨cy.toNat, by omega, Or.inr ?_⟩, by simp [hx]⟩
        simp only [Mino.mk.injEq, Prod.mk.injEq, and_true, true_and]
        omega
    · refine ⟨⟨(cx, -1), .white⟩, Or.inr ⟨(cx + 1).toNat, by omega, ?_⟩, by simp [hy]⟩
      simp only [Mino.mk.injEq, Prod.mk.injEq, and_true, true_and]
      omega

theorem fallingHandle_minos_eq (fuel : ℕ) (s : GameState) (input : FallingInput) :
    (fallingHandle fuel s input).1.minos = s.minos := by
  cases input <;> simp only [fallingHandle] <;> (try split) <;> rfl

theorem tickFalling_minos_eq (acc delta : ℚ) (s : GameState) :
    (tickFalling acc delta s).2.1.minos = s.minos := by
  simp only [tickFalling]
  split
  · rfl
  · split <;> rfl

theorem move_commits_iff_pivot_free (s : GameState) (d : Cell) (hd : d ≠ (0, 0)) :
    ((if isMovable s.minos (addCell s.falling.origin d) = true then
        ({ s with falling := { s.falling with origin := addCell s.falling.origin d } },
         false)
      else (s, false)).1.falling.origin = addCell s.falling.origin d
      ↔ ∀ m ∈ s.minos, m.pos ≠ addCell s.falling.origin d) := by
  split
  case isTrue h => exact iff_of_true rfl ((isMovable_iff _ _).mp h)
  case isFalse h =>
    refine iff_of_false (fun hc => addCell_ne_self s.falling.origin d hd hc.symm)
      (fun hall => h ((isMovable_iff _ _).mpr hall))

/-! ## The claims -/

/-- C1: the claim says `hard_drop` commits the last *successful*
placement, so the piece lands at the lowest row for which the collision
check holds.  The code's loop breaks with `new_transform` already
holding the first *failing* candidate and then commits it: from the
spawn cell `(5, 16)` on an empty board the origin is committed at row
`-1`, inside the dummy floor, although row `0` is the lowest movable
row. -/
theorem c1_hard_drop_commits_blocked_row :
    (fallingHandle 32 ⟨dummyMinos, ⟨(5, 16), 0, O, .yellow⟩⟩ .hardDrop).1.falling.origin
        = (5, -1)
    ∧ (fallingHandle 32 ⟨dummyMinos, ⟨(5, 16), 0, O, .yellow⟩⟩ .hardDrop).2 = true
    ∧ isMovable dummyMinos (5, 0) = true
    ∧ isMovable dummyMinos (5, -1) = false := by decide

/-- C2 counterexample: a lateral move commits although one of the four
candidate occupied cells (here `(3, 6)`, the rotated `(0, 1)` offset of
the `T` piece) is already landed — only the pivot cell is checked. -/
theorem c2_counterexample_move_commits_despite_overlap :
    (fallingHandle 0 ⟨dummyMinos ++ [⟨(3, 6), .red⟩], ⟨(4, 5), 0, T, .pink⟩⟩
        .left).1.falling.origin = (3, 5)
    ∧ (3, 6) ∈ occupiedCells
        (fallingHandle 0 ⟨dummyMinos ++ [⟨(3, 6), .red⟩], ⟨(4, 5), 0, T, .pink⟩⟩
          .left).1.falling
    ∧ Mino.mk (3, 6) .red ∈ dummyMinos ++ [⟨(3, 6), .red⟩]
    ∧ isMovable (dummyMinos ++ [⟨(3, 6), .red⟩]) (3, 6) = false := by decide

/-- C2 (amended): a lateral move or gravity descent commits exactly when
the *pivot*'s candidate cell coincides with no non-falling mino; the
other three occupied cells are never consulted. -/
theorem c2_moves_check_only_pivot (fuel : ℕ) (s : GameState) (acc delta : ℚ)
    (hacc : gravityThreshold ≤ acc + delta) :
    ((fallingHandle fuel s .left).1.falling.origin = addCell s.falling.origin (-1, 0)
      ↔ ∀ m ∈ s.minos, m.pos ≠ addCell s.falling.origin (-1, 0))
    ∧ ((fallingHandle fuel s .right).1.falling.origin = addCell s.falling.origin (1, 0)
      ↔ ∀ m ∈ s.minos, m.pos ≠ addCell s.falling.origin (1, 0))
    ∧ ((tickFalling acc delta s).2.1.falling.origin = addCell s.falling.origin (0, -1)
      ↔ ∀ m ∈ s.minos, m.pos ≠ addCell s.falling.origin (0, -1)) := by
  refine ⟨move_commits_iff_pivot_free s (-1, 0) (by decide),
    move_commits_iff_pivot_free s (1, 0) (by decide), ?_⟩
  have h1 : ¬ (acc + delta < gravityThreshold) := not_lt.mpr hacc
  simp only [tickFalling, if_neg h1]
  split
  case isTrue h => exact iff_of_true rfl ((isMovable_iff _ _).mp h)
  case isFalse h =>
    refine iff_of_false (fun hc => addCell_ne_self s.falling.origin (0, -1) (by decide) hc.symm)
      (fun hall => h ((isMovable_iff _ _).mpr hall))

/-- C2 witness: the amended theorem applied at a concrete state after
discharging the threshold hypothesis. -/
theorem c2_witness :
    gravityThreshold ≤ (0 : ℚ) + 2
    ∧ (((fallingHandle 0 emptyState .left).1.falling.origin
          = addCell emptyState.falling.origin (-1, 0)
        ↔ ∀ m ∈ emptyState.minos, m.pos ≠ addCell emptyState.falling.origin (-1, 0))
      ∧ ((fallingHandle 0 emptyState .right).1.falling.origin
          = addCell emptyState.falling.origin (1, 0)
        ↔ ∀ m ∈ emptyState.minos, m.pos ≠ addCell emptyState.falling.origin (1, 0))
      ∧ ((tickFalling 0 2 emptyState).2.1.falling.origin
          = addCell emptyState.falling.origin (0, -1)
        ↔ ∀ m ∈ emptyState.minos, m.pos ≠ addCell emptyState.falling.origin (0, -1))) :=
  ⟨by norm_num [gravityThreshold],
   c2_moves_check_only_pivot 0 emptyState 0 2 (by norm_num [gravityThreshold])⟩

/-- C3 counterexample: the claim says any candidate with `col ≥ 10` or
`col < 0` is rejected; but the dummy wall sits at column `11`, not `10`,
and only column `-1` is walled, so both `(10, 0)` and `(-2, 5)` pass the
check on an empty board. -/
theorem c3_counterexample_col_ten_accepted :
    isMovable dummyMinos (10, 0) = true ∧ isMovable dummyMinos (-2, 5) = true := by decide

/-- C3 (amended): on an empty board `is_movable` rejects exactly the
cells of the dummy walls (columns `-1` and `11`, rows `0..16`) and the
dummy floor (row `-1`, columns `-1..10`); every in-bounds candidate with
non-negative row passes, with no upper row bound. -/
theorem c3_rejection_is_dummy_cells (c : Cell) :
    (isMovable dummyMinos c = false ↔
      ((c.1 = -1 ∨ c.1 = 11) ∧ 0 ≤ c.2 ∧ c.2 ≤ 16) ∨
        (c.2 = -1 ∧ -1 ≤ c.1 ∧ c.1 ≤ 10))
    ∧ (0 ≤ c.1 → c.1 ≤ 9 → 0 ≤ c.2 → isMovable dummyMinos c = true) := by
  have h := (isMovable_false_iff dummyMinos c).trans (dummy_blocked_iff c)
  refine ⟨h, fun h1 h2 h3 => ?_⟩
  cases hb : isMovable dummyMinos c
  · rcases h.mp hb with ⟨hx, hy1, hy2⟩ | ⟨hy, hx1, hx2⟩
    · rcases hx with hx | hx <;> omega
    · omega
  · rfl

/-- C3 witness: the in-bounds clause of the amended theorem at the cell
`(3, 5)`. -/
theorem c3_witness :
    (0 : ℤ) ≤ 3 ∧ (3 : ℤ) ≤ 9 ∧ (0 : ℤ) ≤ 5 ∧ isMovable dummyMinos (3, 5) = true :=
  ⟨by decide, by decide, by decide,
   (c3_rejection_is_dummy_cells (3, 5)).2 (by decide) (by decide) (by decide)⟩

/-- C4: after `handle_landing` every cell the falling piece occupied is
present among the minos with the piece's color, and the single new
falling piece sits at the spawn coordinate `(5, 16)` with zero
quarter-turns. -/
theorem c4_landing_inserts_cells_and_respawns (s : GameState) (b : ℕ) (c : Cell)
    (hc : c ∈ occupiedCells s.falling) :
    ∃ s', handleLanding s b = some s'
      ∧ Mino.mk c s.falling.color ∈ s'.minos
      ∧ s'.falling.origin = spawnCoord ∧ s'.falling.rot = 0 := by
  obtain ⟨sc, hmem, hsc⟩ := chooseShape_lt_seven (b % 7) (Nat.mod_lt b (by norm_num))
  obtain ⟨sh, co⟩ := sc
  refine ⟨⟨s.minos ++ (occupiedCells s.falling).map (fun c => ⟨c, s.falling.color⟩),
    ⟨spawnCoord, 0, sh, co⟩⟩, ?_, ?_, rfl, rfl⟩
  · simp [handleLanding, spawnFalling, hsc]
  · simp only [List.mem_append, List.mem_map]
    exact Or.inr ⟨c, hc, rfl⟩

/-- C4 witness: the theorem at an `O` piece resting at `(5, 0)` and the
occupied cell `(5, 1)`. -/
theorem c4_witness :
    (5, 1) ∈ occupiedCells (GameState.mk dummyMinos ⟨(5, 0), 0, O, .yellow⟩).falling
    ∧ ∃ s', handleLanding (GameState.mk dummyMinos ⟨(5, 0), 0, O, .yellow⟩) 3 = some s'
        ∧ Mino.mk (5, 1) (GameState.mk dummyMinos ⟨(5, 0), 0, O, .yellow⟩).falling.color
            ∈ s'.minos
        ∧ s'.falling.origin = spawnCoord ∧ s'.falling.rot = 0 :=
  ⟨by decide,
   c4_landing_inserts_cells_and_respawns (GameState.mk dummyMinos ⟨(5, 0), 0, O, .yellow⟩)
     3 (5, 1) (by decide)⟩

/-- C5 counterexample: the claim says an already-landed coordinate makes
`land` fail with an overlap error; `handle_landing` performs no such
check — landing a piece over the landed cell `(5, 5)` succeeds and
leaves the coordinate present twice. -/
theorem c5_counterexample_silent_duplicate :
    Mino.mk (5, 5) .green ∈ dummyMinos ++ [⟨(5, 5), .green⟩]
    ∧ (5, 5) ∈ occupiedCells (Piece.mk (5, 5) 0 T .pink)
    ∧ ((handleLanding ⟨dummyMinos ++ [⟨(5, 5), .green⟩], ⟨(5, 5), 0, T, .pink⟩⟩ 0).map
        (fun s' => ((s'.minos.filter (fun m => m.pos = (5, 5))).length))) = some 2 := by
  decide

/-- C5 (amended): `handle_landing` inserts every occupied coordinate
unconditionally — the call always succeeds, and the multiplicity of each
mino grows by exactly its multiplicity among the landed cells, so an
already-present coordinate is silently duplicated rather than
rejected. -/
theorem c5_landing_never_fails (s : GameState) (b : ℕ) (m : Mino) :
    ∃ s', handleLanding s b = some s'
      ∧ s'.minos.count m
          = s.minos.count m
            + ((occupiedCells s.falling).map (fun c => Mino.mk c s.falling.color)).count m := by
  obtain ⟨sc, hmem, hsc⟩ := chooseShape_lt_seven (b % 7) (Nat.mod_lt b (by norm_num))
  obtain ⟨sh, co⟩ := sc
  refine ⟨⟨s.minos ++ (occupiedCells s.falling).map (fun c => ⟨c, s.falling.color⟩),
    ⟨spawnCoord, 0, sh, co⟩⟩, ?_, ?_⟩
  · simp [handleLanding, spawnFalling, hsc]
  · exact List.count_append _ _ _

/-- C6: rotation is unconditional: for every state — including states
where the rotated occupied cells overlap landed minos — the spin arms
commit the new rotation without consulting `is_movable`, leaving the
origin and the mino set untouched and sending no landing event. -/
theorem c6_rotation_unconditional (fuel : ℕ) (s : GameState) :
    fallingHandle fuel s .p90Spin = ({ s with falling := p90Spin s.falling }, false)
    ∧ fallingHandle fuel s .n90Spin = ({ s with falling := n90Spin s.falling }, false)
    ∧ (fallingHandle fuel s .p90Spin).1.falling.rot = s.falling.rot + 1
    ∧ (fallingHandle fuel s .n90Spin).1.falling.rot = s.falling.rot - 1
    ∧ (fallingHandle fuel s .p90Spin).1.falling.origin = s.falling.origin
    ∧ (fallingHandle fuel s .p90Spin).1.minos = s.minos :=
  ⟨rfl, rfl, rfl, rfl, rfl, rfl⟩

/-- C7: below the 1.5-second threshold the tick only accumulates; at or
past the threshold the clock fires exactly once — the accumulator resets
to zero no matter how far it overshot, the piece descends at most one
row, and a landing event is sent exactly when the cell below the origin
is blocked. -/
theorem c7_gravity_fires_once_and_resets (acc delta : ℚ) (s : GameState) :
    (acc + delta < gravityThreshold → tickFalling acc delta s = (acc + delta, s, false))
    ∧ (gravityThreshold ≤ acc + delta →
        (tickFalling acc delta s).1 = 0
        ∧ ((tickFalling acc delta s).2.1.falling.origin = addCell s.falling.origin (0, -1)
            ∨ (tickFalling acc delta s).2.1 = s)
        ∧ ((tickFalling acc delta s).2.2 = true
            ↔ isMovable s.minos (addCell s.falling.origin (0, -1)) = false)) := by
  constructor
  · intro hlt
    simp only [tickFalling, if_pos hlt]
  · intro hge
    have h1 : ¬ (acc + delta < gravityThreshold) := not_lt.mpr hge
    simp only [tickFalling, if_neg h1]
    split
    case isTrue h => exact ⟨rfl, Or.inl rfl, by simp [h]⟩
    case isFalse h =>
      refine ⟨rfl, Or.inr rfl, ?_⟩
      simp only [Bool.not_eq_true] at h
      simp [h]

/-- C7 witness: the firing clause at accumulator `0` and a frame delta
of `2` seconds, far past the threshold. -/
theorem c7_witness :
    gravityThreshold ≤ (0 : ℚ) + 2
    ∧ ((tickFalling 0 2 emptyState).1 = 0
      ∧ ((tickFalling 0 2 emptyState).2.1.falling.origin
            = addCell emptyState.falling.origin (0, -1)
          ∨ (tickFalling 0 2 emptyState).2.1 = emptyState)
      ∧ ((tickFalling 0 2 emptyState).2.2 = true
          ↔ isMovable emptyState.minos (addCell emptyState.falling.origin (0, -1)) = false)) :=
  ⟨by norm_num [gravityThreshold],
   (c7_gravity_fires_once_and_resets 0 2 emptyState).2 (by norm_num [gravityThreshold])⟩

/-- C8 counterexample: the claim says teardown clears the landed set;
`despawn_area` removes only `AreaEntity`-tagged entities (the camera and
the field sprite), and a landed mino — which carries only `MinoEntity` —
survives it. -/
theorem c8_counterexample_minos_survive_teardown :
    despawnArea [cameraEntity, fieldEntity, landedEntity ⟨(3, 3), .red⟩]
        = [landedEntity ⟨(3, 3), .red⟩]
    ∧ despawnArea [cameraEntity, fieldEntity, landedEntity ⟨(3, 3), .red⟩] ≠ [] := by
  decide

/-- C8 (amended): during a session no mino is ever removed — every
operation keeps existing minos — and at stage exit `despawn_area`
removes exactly the `AreaEntity`-tagged entities; landed and dummy mino
entities carry no such tag, so the landed set persists rather than being
cleared. -/
theorem c8_minos_never_removed (fuel : ℕ) (s : GameState) (input : FallingInput)
    (acc delta : ℚ) (b : ℕ) (m : Mino) (es : List SceneEntity) (e : SceneEntity)
    (hm : m ∈ s.minos) :
    m ∈ (fallingHandle fuel s input).1.minos
    ∧ m ∈ (tickFalling acc delta s).2.1.minos
    ∧ (∀ s', handleLanding s b = some s' → m ∈ s'.minos)
    ∧ (e ∈ despawnArea es ↔ e ∈ es ∧ Tag.area ∉ e.tags)
    ∧ Tag.area ∉ (landedEntity m).tags
    ∧ Tag.area ∉ (dummyEntity m.pos).tags := by
  refine ⟨?_, ?_, ?_, ?_, ?_, ?_⟩
  · rw [fallingHandle_minos_eq]; exact hm
  · rw [tickFalling_minos_eq]; exact hm
  · intro s' hs'
    simp only [handleLanding, Option.map_eq_some'] at hs'
    obtain ⟨p, hp, rfl⟩ := hs'
    exact List.mem_append_left _ hm
  · simp [despawnArea, List.mem_filter]
  · exact (by decide : Tag.area ∉ [Tag.mino])
  · exact (by decide : Tag.area ∉ [Tag.mino, Tag.dummyMino])

/-- C8 witness: the amended theorem at a one-mino state, the left-move
input, and a camera entity. -/
theorem c8_witness :
    Mino.mk (2, 2) .red ∈ [Mino.mk (2, 2) .red]
    ∧ (Mino.mk (2, 2) .red
        ∈ (fallingHandle 0 ⟨[⟨(2, 2), .red⟩], ⟨(5, 16), 0, O, .yellow⟩⟩ .left).1.minos
      ∧ Mino.mk (2, 2) .red
          ∈ (tickFalling 0 0 ⟨[⟨(2, 2), .red⟩], ⟨(5, 16), 0, O, .yellow⟩⟩).2.1.minos
      ∧ (∀ s', handleLanding ⟨[⟨(2, 2), .red⟩], ⟨(5, 16), 0, O, .yellow⟩⟩ 0 = some s' →
            Mino.mk (2, 2) .red ∈ s'.minos)
      ∧ (cameraEntity ∈ despawnArea [cameraEntity]
          ↔ cameraEntity ∈ [cameraEntity] ∧ Tag.area ∉ cameraEntity.tags)
      ∧ Tag.area ∉ (landedEntity (Mino.mk (2, 2) .red)).tags
      ∧ Tag.area ∉ (dummyEntity (Mino.mk (2, 2) .red).pos).tags) :=
  ⟨by decide,
   c8_minos_never_removed 0 ⟨[⟨(2, 2), .red⟩], ⟨(5, 16), 0, O, .yellow⟩⟩ .left 0 0 0
     (Mino.mk (2, 2) .red) [cameraEntity] cameraEntity (by decide)⟩

/-- C9: four quarter-turns in either direction restore the occupied cell
set of any piece: the integer quarter-turn on grid offsets has order
four and the occupied cells depend on the turn count only modulo
four. -/
theorem c9_four_quarter_turns_identity (p : Piece) :
    occupiedCells (p90Spin (p90Spin (p90Spin (p90Spin p)))) = occupiedCells p
    ∧ occupiedCells (n90Spin (n90Spin (n90Spin (n90Spin p)))) = occupiedCells p := by
  constructor
  · simp only [occupiedCells, p90Spin]
    congr 1
    funext o
    rw [show p.rot + 1 + 1 + 1 + 1 = p.rot + 4 by ring, zrot_add_four]
  · simp only [occupiedCells, n90Spin]
    congr 1
    funext o
    rw [show p.rot - 1 - 1 - 1 - 1 = p.rot - 4 by ring, zrot_sub_four]

/-- C10: reducing any random byte modulo `7` lands in the seven matched
arms, so the `panic!()` arm of `spawn_falling` is unreachable and the
spawned piece always carries one of the seven catalog shapes, at the
spawn coordinate with zero rotation. -/
theorem c10_spawn_panic_unreachable (b : ℕ) :
    b % 7 < 7
    ∧ (∃ sc ∈ shapeCatalog, chooseShape (b % 7) = some sc)
    ∧ (∃ p, spawnFalling b = some p ∧ (p.shape, p.color) ∈ shapeCatalog
        ∧ p.origin = spawnCoord ∧ p.rot = 0) := by
  have hb : b % 7 < 7 := Nat.mod_lt b (by norm_num)
  obtain ⟨sc, hmem, hsc⟩ := chooseShape_lt_seven (b % 7) hb
  obtain ⟨sh, co⟩ := sc
  refine ⟨hb, ⟨(sh, co), hmem, hsc⟩, ⟨spawnCoord, 0, sh, co⟩, ?_, hmem, rfl, rfl⟩
  simp [spawnFalling, hsc]

end Karpas
